import Mathlib

/-!
Verification of the smartwatch control core (main.c / working_acc.c).

Shallow embedding conventions:
* `uint8_t` / `uint16_t` / `uint32_t` counters are modelled as `Nat`; the
  claims under verification only concern in-range values where no wraparound
  occurs (noted at each definition where it matters).
* `float` quantities (accelerometer magnitudes, pace values) are modelled as
  `ℚ` with exact arithmetic; the comparisons and `±2.0` updates in the source
  are exactly representable.
* The I2C bus and the accelerometer are external collaborators; a register
  read attempt is an oracle value `I2CResult`.
* `haltWithError(msg)` renders `msg` and spins forever; it is modelled as
  `Except.error msg` (the error value records the rendered diagnostic).
* Display-primitive calls and `DELAY_milliseconds` inside the timer interrupt
  are modelled as an explicit effect trace, since one claim is about their
  absence.
-/

/-! ## ClockModel (main.c lines 101-102, 238-264) -/

/-- `DAYS_PER_MONTH` table from main.c line 101: fixed days per month, no
leap-year handling. -/
def DAYS_PER_MONTH : List Nat := [31, 28, 31, 30, 31, 30, 31, 31, 30, 31, 30, 31]

/-- `DAYS_PER_MONTH[month - 1]` as used throughout main.c (months are
1-based). Out-of-range months (never reached under the validity invariant)
default to 0. -/
def daysInMonth (month : Nat) : Nat := DAYS_PER_MONTH.getD (month - 1) 0

/-- `ClockTime` struct from main.c lines 64-70. Fields are `uint8_t` in the
source; modelled as `Nat` (all in-range values stay far below 256). -/
structure ClockTime where
  hours : Nat
  minutes : Nat
  seconds : Nat
  day : Nat
  month : Nat
deriving DecidableEq, Repr

/-- `advanceDate` from main.c lines 238-247: increment the day, roll to day 1
of the next month past the month's day count, and roll month 12 to 1. -/
def advanceDate (t : ClockTime) : ClockTime :=
  let d := t.day + 1
  let maxDays := daysInMonth t.month
  if maxDays < d then
    let m := t.month + 1
    { t with day := 1, month := if 12 < m then 1 else m }
  else
    { t with day := d }

/-- `incrementSystemTime` from main.c lines 250-264: cascade of sequential
`if` statements rolling seconds into minutes, minutes into hours, and hours
into `advanceDate`. In the source the hours are zeroed before `advanceDate`
runs; `advanceDate` does not touch the hours field. -/
def incrementSystemTime (t : ClockTime) : ClockTime :=
  let t1 : ClockTime := { t with seconds := t.seconds + 1 }
  let t2 : ClockTime :=
    if 60 ≤ t1.seconds then { t1 with seconds := 0, minutes := t1.minutes + 1 } else t1
  let t3 : ClockTime :=
    if 60 ≤ t2.minutes then { t2 with minutes := 0, hours := t2.hours + 1 } else t2
  if 24 ≤ t3.hours then advanceDate { t3 with hours := 0 } else t3

/-- The in-range invariant for `ClockTime` stated in the data model: hours
0-23, minutes 0-59, seconds 0-59, month 1-12, and the day never exceeds the
current month's day count. -/
def validTime (t : ClockTime) : Prop :=
  t.hours < 24 ∧ t.minutes < 60 ∧ t.seconds < 60 ∧
    1 ≤ t.month ∧ t.month ≤ 12 ∧ 1 ≤ t.day ∧ t.day ≤ daysInMonth t.month

instance (t : ClockTime) : Decidable (validTime t) := by
  unfold validTime; infer_instance

/-- Modelled calendar time: days elapsed since January 1 within the fixed
365-day no-leap-year calendar, for a 1-based month. -/
def monthStartDay (month : Nat) : Nat :=
  (DAYS_PER_MONTH.take (month - 1)).foldl (fun a b => a + b) 0

/-- Seconds elapsed since 00:00:00 January 1 of the fixed 365-day year; the
abstraction in which "advancing by N seconds" is addition modulo the year. -/
def toSeconds (t : ClockTime) : Nat :=
  (monthStartDay t.month + (t.day - 1)) * 86400 +
    t.hours * 3600 + t.minutes * 60 + t.seconds

/-- Total seconds in the modelled 365-day year. -/
def YEAR_SECONDS : Nat := 365 * 86400

/-! ## StepDetector (main.c lines 184-206, working_acc.c lines 112-138) -/

/-- `STEP_THRESHOLD` from main.c line 43 (the working_acc.c prototype uses
200; the spec treats the value as a tunable constant, and the claims hold for
either value — the development uses main.c's 900). -/
def STEP_THRESHOLD : ℚ := 900

/-- `GRAVITY_BASELINE` from main.c line 87. -/
def GRAVITY_BASELINE : ℚ := 1024

/-- `dynamicForce = fabsf(magnitude - GRAVITY_BASELINE)` from main.c
line 194. The magnitude is the scaled Euclidean norm the sampler computes;
the detector consumes it as a scalar, so it is the model's input. -/
def dynamicForce (magnitude : ℚ) : ℚ := |magnitude - GRAVITY_BASELINE|

/-- The step-detector state from main.c lines 84-89: the persistent edge flag
`wasStepThresholdExceeded`, the running `totalSteps` counter, the current
per-second bucket slot `stepsPerSecond[currentSecondIndex]`, and the
`isMovementActive` indicator. Counters are `uint16_t`/`uint8_t` in the
source; the claims concern increments, far from wraparound. -/
structure StepState where
  wasStepThresholdExceeded : Bool
  totalSteps : Nat
  bucket : Nat
  isMovementActive : Bool
deriving DecidableEq, Repr

/-- Boot-time step-detector state (main.c lines 84-86: flag false, zero
steps). -/
def initialStepState : StepState :=
  { wasStepThresholdExceeded := false, totalSteps := 0, bucket := 0,
    isMovementActive := false }

/-- Whether a magnitude sample strictly exceeds the step threshold, the
comparison `dynamicForce > STEP_THRESHOLD` of main.c line 195. -/
def stepAbove (magnitude : ℚ) : Bool := decide (STEP_THRESHOLD < dynamicForce magnitude)

/-- `detectStep` from main.c lines 184-206 (identical logic in working_acc.c
lines 112-138), with the sensor magnitude supplied as input: set
`isMovementActive`, increment `totalSteps` and the current bucket slot only
on the rising edge, then always update the edge flag. -/
def detectStep (magnitude : ℚ) (s : StepState) : StepState :=
  let exceedsThreshold := stepAbove magnitude
  let rising := exceedsThreshold && !s.wasStepThresholdExceeded
  { wasStepThresholdExceeded := exceedsThreshold
    isMovementActive := exceedsThreshold
    totalSteps := if rising then s.totalSteps + 1 else s.totalSteps
    bucket := if rising then s.bucket + 1 else s.bucket }

/-- Process a whole sequence of magnitude samples through `detectStep`. -/
def runDetect (mags : List ℚ) (s : StepState) : StepState :=
  mags.foldl (fun acc m => detectStep m acc) s

/-- Number of rising edges in a boolean sample sequence, given the value of
the edge flag before the first sample. -/
def risingEdges : Bool → List Bool → Nat
  | _, [] => 0
  | prev, b :: rest => (if b && !prev then 1 else 0) + risingEdges b rest

/-- Number of maximal runs of `true` in a boolean sequence — the spec-side
notion "exactly once per maximal run of samples above threshold". -/
def countTrueRuns : List Bool → Nat
  | [] => 0
  | false :: rest => countTrueRuns rest
  | true :: rest => 1 + countTrueRuns (rest.dropWhile (fun b => b))
termination_by l => l.length
decreasing_by
  · simp
  · have h : (rest.dropWhile (fun b => b)).length ≤ rest.length :=
      List.Sublist.length_le (List.dropWhile_sublist (fun b => b))
    simp only [List.length_cons]
    omega

/-! ## PaceEstimator foreground update (main.c lines 917-931) -/

/-- One foreground iteration of the pace smoother, main.c lines 917-929:
move `displayedStepPace` toward `rawPace` by 2.0 without crossing it, then
snap values below 0.5 to 0, else clamp values above 100 to 100. `0.5f` and
`2.0f` are exactly representable, so the `ℚ` model is exact on the
source's reachable values. -/
def paceUpdate (rawPace d0 : ℚ) : ℚ :=
  let d1 : ℚ :=
    if d0 < rawPace then
      let d := d0 + 2
      if rawPace < d then rawPace else d
    else if rawPace < d0 then
      let d := d0 - 2
      if d < rawPace then rawPace else d
    else d0
  if d1 < (1 : ℚ) / 2 then 0
  else if (100 : ℚ) < d1 then 100
  else d1

/-! ## Tilt confirmation (main.c lines 444-457, 460-487) -/

/-- `TILT_THRESHOLD` from main.c line 450. -/
def TILT_THRESHOLD : ℚ := 600

/-- `checkTiltToSave` from main.c lines 444-457, with the computed magnitude
supplied as input: the device reads level when the magnitude is strictly
below the tilt threshold. -/
def checkTiltToSave (magnitude : ℚ) : Bool := decide (magnitude < TILT_THRESHOLD)

/-- Streak of consecutive level polls required before the set-time /
set-date draft commits (main.c line 475: `tiltCount >= 1`). -/
def TILT_STREAK : Nat := 1

/-- The tilt-confirm loop state of `manageTimeSetPage` /
`manageDateSetPage` (main.c lines 470-486, 576-591): the `tiltCount`
streak counter and whether the commit has fired. -/
structure TiltLoopState where
  tiltCount : Nat
  committed : Bool
deriving DecidableEq, Repr

/-- One poll of the tilt-confirm loop (main.c lines 473-484): a level poll
increments the streak and commits once the streak is reached; a poll at or
above the tilt threshold resets the streak counter to 0. After a commit the
loop has exited, so the state is frozen. -/
def tiltPoll (s : TiltLoopState) (magnitude : ℚ) : TiltLoopState :=
  if s.committed then s
  else if checkTiltToSave magnitude then
    let c := s.tiltCount + 1
    if TILT_STREAK ≤ c then { tiltCount := c, committed := true }
    else { s with tiltCount := c }
  else { s with tiltCount := 0 }

/-- Run the tilt-confirm loop over a sequence of polled magnitudes. -/
def runTiltPolls (s : TiltLoopState) (mags : List ℚ) : TiltLoopState :=
  mags.foldl tiltPoll s

/-! ## Set-time / set-date drafts (main.c lines 54-62, 415-441, 522-563) -/

/-- `TimeSetting` draft struct from main.c lines 54-57. -/
structure TimeSetting where
  hours : Nat
  minutes : Nat
deriving DecidableEq, Repr

/-- `DateSetting` draft struct from main.c lines 59-62. -/
structure DateSetting where
  day : Nat
  month : Nat
deriving DecidableEq, Repr

/-- `processTimeSetInput` from main.c lines 415-441, as a function of the
selected field (`false` = hours field, mirroring `timeFieldSelected == 0`)
and the two button levels: combo toggles the field, button 1 increments the
selected field modulo its bound, button 2 decrements with wrap. -/
def processTimeSetInput (fieldSelected : Bool) (t : TimeSetting) (b1 b2 : Bool) :
    Bool × TimeSetting :=
  if b1 && b2 then (!fieldSelected, t)
  else if b1 then
    (fieldSelected,
      if fieldSelected then { t with minutes := (t.minutes + 1) % 60 }
      else { t with hours := (t.hours + 1) % 24 })
  else if b2 then
    (fieldSelected,
      if fieldSelected then
        { t with minutes := if t.minutes = 0 then 59 else t.minutes - 1 }
      else
        { t with hours := if t.hours = 0 then 23 else t.hours - 1 })
  else (fieldSelected, t)

/-- Day-field increment from main.c lines 533-535:
`day = (day % maxDay) + 1`, wrapping the month's last day to 1. -/
def dateDayIncrement (d : DateSetting) : DateSetting :=
  let maxDay := daysInMonth d.month
  { d with day := (d.day % maxDay) + 1 }

/-- Day-field decrement from main.c lines 546-550: day 1 wraps to the
month's day count, otherwise decrement. -/
def dateDayDecrement (d : DateSetting) : DateSetting :=
  if d.day = 1 then { d with day := daysInMonth d.month }
  else { d with day := d.day - 1 }

/-- Month-field increment from main.c lines 536-541: advance the month with
wrap 12 to 1, then clamp a staged day exceeding the new month's day count
down to that count. -/
def dateMonthIncrement (d : DateSetting) : DateSetting :=
  let m := (d.month % 12) + 1
  let maxDay := daysInMonth m
  { day := if maxDay < d.day then maxDay else d.day, month := m }

/-- Month-field decrement from main.c lines 551-558: month 1 wraps to 12,
then the same downward clamp of the staged day. -/
def dateMonthDecrement (d : DateSetting) : DateSetting :=
  let m := if d.month = 1 then 12 else d.month - 1
  let maxDay := daysInMonth m
  { day := if maxDay < d.day then maxDay else d.day, month := m }

/-- `processDateSetInput` from main.c lines 522-563 (`false` = day field,
mirroring `dateFieldSelected == 0`): combo toggles the field, button 1
increments the selected field, button 2 decrements it. -/
def processDateSetInput (fieldSelected : Bool) (d : DateSetting) (b1 b2 : Bool) :
    Bool × DateSetting :=
  if b1 && b2 then (!fieldSelected, d)
  else if b1 then
    (fieldSelected, if fieldSelected then dateMonthIncrement d else dateDayIncrement d)
  else if b2 then
    (fieldSelected, if fieldSelected then dateMonthDecrement d else dateDayDecrement d)
  else (fieldSelected, d)

/-- The in-range invariant for a staged date: month 1-12 and day within the
active month's day count. -/
def validDate (d : DateSetting) : Prop :=
  1 ≤ d.month ∧ d.month ≤ 12 ∧ 1 ≤ d.day ∧ d.day ≤ daysInMonth d.month

instance (d : DateSetting) : Decidable (validDate d) := by
  unfold validDate; infer_instance

/-! ## MainMenu selection (main.c lines 47, 870-897) -/

/-- `MENU_ITEM_COUNT` from main.c line 47. -/
def MENU_ITEM_COUNT : Nat := 5

/-- MainMenu button-1 single-press action, main.c lines 874-877: decrement
the selection index, wrapping 0 to the last index. -/
def menuSelectionOnButton1 (sel : Nat) : Nat :=
  if sel = 0 then MENU_ITEM_COUNT - 1 else sel - 1

/-- MainMenu button-2 single-press action, main.c lines 888-891: increment
the selection index, wrapping the last index to 0. -/
def menuSelectionOnButton2 (sel : Nat) : Nat :=
  if sel = MENU_ITEM_COUNT - 1 then 0 else sel + 1

/-! ## I2C retry path (main.c lines 126-151) -/

/-- Outcome of one I2C register-read attempt: `ok value` on bus status `OK`,
`error` otherwise. The byte value is a `Nat` below 256. -/
inductive I2CResult where
  | ok : Nat → I2CResult
  | error : I2CResult
deriving DecidableEq, Repr

/-- One retried register read, main.c lines 136-141 (and 143-148): up to 3
attempts, breaking on the first success, with `DELAY_milliseconds(10)`
between attempts, and `haltWithError msg` (render the diagnostic, then spin
forever — modelled as `Except.error msg`) when the last attempt fails.
The second component counts the fixed 10 ms inter-attempt delays taken,
one per failed non-final attempt. -/
def retryRead (attempts : Nat → I2CResult) (msg : String) : Except String Nat × Nat :=
  match attempts 0 with
  | .ok v => (.ok v, 0)
  | .error =>
    match attempts 1 with
    | .ok v => (.ok v, 1)
    | .error =>
      match attempts 2 with
      | .ok v => (.ok v, 2)
      | .error => (.error msg, 2)

/-- Two's-complement reinterpretation of a 16-bit pattern, the
`(int16_t)highByte << 8 | lowByte` of main.c line 150. -/
def toInt16 (n : Nat) : Int :=
  if n % 65536 < 32768 then ((n % 65536 : Nat) : Int)
  else ((n % 65536 : Nat) : Int) - 65536

/-- `readAccelerometerAxis` from main.c lines 133-151: retried read of the
low byte, then of the high byte, composing the signed 16-bit sample; a halt
in either retried read aborts the axis read with that diagnostic. -/
def readAccelerometerAxis (lowAttempts highAttempts : Nat → I2CResult) :
    Except String Int :=
  match (retryRead lowAttempts "I2C Read Error (LSB)").1 with
  | .error m => .error m
  | .ok lowByte =>
    match (retryRead highAttempts "I2C Read Error (MSB)").1 with
    | .error m => .error m
    | .ok highByte => .ok (toInt16 (highByte * 256 + lowByte))

/-! ## Shared system state, tick handler, and foreground menu iteration
(main.c lines 72-102, 768-813, 839-941) -/

/-- `HISTORY_SIZE` from main.c line 46. -/
def HISTORY_SIZE : Nat := 60

/-- Effects the timer interrupt can issue besides mutating shared state:
a call into a display primitive (`renderMainMenu` issues clear-screen and
draw-string calls; one marker stands for the batch) and a blocking
`DELAY_milliseconds` wait. -/
inductive TickEffect where
  | displayCall : TickEffect
  | delayMs : Nat → TickEffect
deriving DecidableEq, Repr

/-- The shared mutable state of main.c (lines 72-102 and the statics of
`_T1Interrupt` / `main`) that the claims touch. `stepsPerSecond` is the
60-slot ring; `stepRateHistory` is the 90-slot graph ring (indices taken
modulo 90 at the write site). -/
structure SystemState where
  systemClock : ClockTime
  elapsedSeconds : Nat
  showFootIcon : Bool
  isGraphDisplayed : Bool
  inMainMenu : Bool
  redrawClock : Bool
  currentMenuSelection : Nat
  button1HoldCount : Nat
  currentSecondIndex : Nat
  stepsPerSecond : List Nat
  previousStepCount : Nat
  inactivityCount : Nat
  totalSteps : Nat
  wasStepThresholdExceeded : Bool
  isMovementActive : Bool
  currentStepPace : ℚ
  displayedStepPace : ℚ
  stepRateHistory : List Nat
  use12HourFormat : Bool
  timeToSet : TimeSetting
  dateToSet : DateSetting
deriving DecidableEq, Repr

/-- `_T1Interrupt` from main.c lines 768-813, with the polled button-1 level
as input. In source order: advance the clock, bump `elapsedSeconds`, toggle
the blink flag; when the graph is not displayed, run the tick-counted
button-1 hold detector (which, on reaching 2 held ticks outside the menu,
enters the menu, calls `renderMainMenu` — a display call — and resets the
hold count; any held poll ends with a blocking 10 ms delay); finally, when
not in menu mode, rotate the per-second bucket, zero the new slot, and
derive `currentStepPace` with the 3-tick inactivity decay.
`totalSteps - previousStepCount` is `uint16_t` arithmetic in the source;
`previousStepCount` is always the previous value of the monotone
`totalSteps`, so plain `Nat` subtraction coincides with it. -/
def tickInterrupt (s0 : SystemState) (button1Pressed : Bool) :
    SystemState × List TickEffect :=
  let s1 : SystemState :=
    { s0 with systemClock := incrementSystemTime s0.systemClock
              elapsedSeconds := s0.elapsedSeconds + 1
              showFootIcon := !s0.showFootIcon }
  let holdStep : SystemState × List TickEffect :=
    if !s1.isGraphDisplayed then
      if button1Pressed then
        let c := s1.button1HoldCount + 1
        if 2 ≤ c && !s1.inMainMenu then
          ({ s1 with inMainMenu := true, currentMenuSelection := 0,
                     button1HoldCount := 0 },
           [TickEffect.displayCall, TickEffect.delayMs 10])
        else
          ({ s1 with button1HoldCount := c }, [TickEffect.delayMs 10])
      else
        ({ s1 with button1HoldCount := 0 }, [])
    else (s1, [])
  let s2 := holdStep.1
  let s3 : SystemState :=
    if !s2.inMainMenu then
      let idx := (s2.currentSecondIndex + 1) % HISTORY_SIZE
      let stepsThisSecond := s2.totalSteps - s2.previousStepCount
      let inact := if stepsThisSecond = 0 then s2.inactivityCount + 1 else 0
      let rawPace : ℚ :=
        if stepsThisSecond = 0 ∧ 3 ≤ inact then 0 else (stepsThisSecond : ℚ) * 60
      { s2 with currentSecondIndex := idx
                stepsPerSecond := s2.stepsPerSecond.set idx 0
                previousStepCount := s2.totalSteps
                inactivityCount := inact
                currentStepPace := rawPace }
    else s2
  (s3, holdStep.2)

/-- Commit of the set-time draft on tilt confirmation, main.c lines 476-478:
hours and minutes from the draft, seconds reset to 0, day and month
untouched. -/
def commitTimeSet (clock : ClockTime) (draft : TimeSetting) : ClockTime :=
  { clock with hours := draft.hours, minutes := draft.minutes, seconds := 0 }

/-- Commit of the set-date draft on tilt confirmation, main.c lines 582-583:
day and month from the draft, hours, minutes and seconds untouched. -/
def commitDateSet (clock : ClockTime) (draft : DateSetting) : ClockTime :=
  { clock with day := draft.day, month := draft.month }

/-- One foreground poll of the set-time / set-date pages: the two button
levels and the accelerometer magnitude `checkTiltToSave` computes. -/
structure SetPagePoll where
  button1 : Bool
  button2 : Bool
  magnitude : ℚ
deriving DecidableEq, Repr

/-- The `while (inTimeSetMenu)` loop of `manageTimeSetPage`, main.c lines
470-486, over a list of polls: process button input into the draft, then
commit and exit on a level poll (the required streak is `TILT_STREAK = 1`,
so the first level poll commits; an unlevel poll resets the streak). An
exhausted poll list leaves the loop still pending, draft uncommitted. -/
def runTimeSetLoop (s : SystemState) (fieldSel : Bool) :
    List SetPagePoll → SystemState
  | [] => s
  | p :: rest =>
    let fd := processTimeSetInput fieldSel s.timeToSet p.button1 p.button2
    let s2 : SystemState := { s with timeToSet := fd.2 }
    if checkTiltToSave p.magnitude then
      { s2 with systemClock := commitTimeSet s2.systemClock s2.timeToSet }
    else
      runTimeSetLoop s2 fd.1 rest

/-- `manageTimeSetPage` from main.c lines 460-487: stage the draft from the
system clock, select the hours field, then run the poll loop. -/
def manageTimeSetPage (s : SystemState) (polls : List SetPagePoll) : SystemState :=
  runTimeSetLoop
    { s with timeToSet :=
        { hours := s.systemClock.hours, minutes := s.systemClock.minutes } }
    false polls

/-- The `while (inTimeSetMenu)` loop of `manageDateSetPage`, main.c lines
576-591, mirror of `runTimeSetLoop` for the date draft. -/
def runDateSetLoop (s : SystemState) (fieldSel : Bool) :
    List SetPagePoll → SystemState
  | [] => s
  | p :: rest =>
    let fd := processDateSetInput fieldSel s.dateToSet p.button1 p.button2
    let s2 : SystemState := { s with dateToSet := fd.2 }
    if checkTiltToSave p.magnitude then
      { s2 with systemClock := commitDateSet s2.systemClock s2.dateToSet }
    else
      runDateSetLoop s2 fd.1 rest

/-- `manageDateSetPage` from main.c lines 566-592: stage the draft from the
system clock, select the day field, then run the poll loop. -/
def manageDateSetPage (s : SystemState) (polls : List SetPagePoll) : SystemState :=
  runDateSetLoop
    { s with dateToSet :=
        { day := s.systemClock.day, month := s.systemClock.month } }
    false polls

/-- State effects of `displayStepGraph`, main.c lines 595-665: the graph is
rendered from `stepRateHistory` (read-only), then the exit loop either
returns to MainMenu on button 2 or drops to the clock face on a 20-poll
button-1 hold; either way `isGraphDisplayed` is cleared on exit. -/
def displayStepGraph (s : SystemState) (exitViaButton2 : Bool) : SystemState :=
  if exitViaButton2 then
    { s with inMainMenu := true, isGraphDisplayed := false }
  else
    { s with inMainMenu := false, redrawClock := true, isGraphDisplayed := false }

/-- `manageTimeFormatSelection` from main.c lines 347-371, with the number
of button-2 toggles before the button-1 commit as input: the staged option
starts at the current format and flips per toggle; button 1 commits it. -/
def manageTimeFormatSelection (s : SystemState) (toggles : Nat) : SystemState :=
  let start := if s.use12HourFormat then 0 else 1
  let opt := (start + toggles) % 2
  { s with use12HourFormat := opt = 0 }

/-- The inputs consumed by whichever sub-page a MainMenu confirm dispatches
to (main.c lines 718-727). -/
structure MenuDispatchInput where
  graphExitViaButton2 : Bool
  formatToggles : Nat
  timePolls : List SetPagePoll
  datePolls : List SetPagePoll
deriving Repr

/-- `executeMenuSelection` from main.c lines 718-727: dispatch on the
current selection to the graph, format, set-time, set-date pages, or exit
to the clock face. -/
def executeMenuSelection (s : SystemState) (inp : MenuDispatchInput) : SystemState :=
  match s.currentMenuSelection with
  | 0 => displayStepGraph s inp.graphExitViaButton2
  | 1 => manageTimeFormatSelection s inp.formatToggles
  | 2 => manageTimeSetPage s inp.timePolls
  | 3 => manageDateSetPage s inp.datePolls
  | 4 => { s with inMainMenu := false, redrawClock := true }
  | _ => s

/-- The input event one MainMenu-mode foreground iteration acts on
(main.c lines 843-905): a sustained combo confirm, a button-1 or button-2
single press, or no press. -/
inductive MenuEvent where
  | comboConfirm : MenuDispatchInput → MenuEvent
  | button1Press : MenuEvent
  | button2Press : MenuEvent
  | idle : MenuEvent

/-- One foreground iteration of the MainMenu branch of `main`, main.c lines
843-905: combo confirm dispatches `executeMenuSelection`; single presses
move the selection with wraparound; otherwise only the on-screen menu clock
is refreshed. The `detectStep` / pace-smoothing / history-write block
(lines 915-937) is in the `else` branch and does not run. -/
def fgMenuIteration (s : SystemState) (e : MenuEvent) : SystemState :=
  match e with
  | .comboConfirm inp => executeMenuSelection s inp
  | .button1Press =>
    { s with currentMenuSelection := menuSelectionOnButton1 s.currentMenuSelection }
  | .button2Press =>
    { s with currentMenuSelection := menuSelectionOnButton2 s.currentMenuSelection }
  | .idle => s

/-! ## Helper lemmas -/

/-- Every month of the table has at least one day. -/
theorem one_le_daysInMonth (m : Nat) (h1 : 1 ≤ m) (h2 : m ≤ 12) :
    1 ≤ daysInMonth m := by
  interval_cases m <;> decide

/-- The set-time / set-date poll loops never touch the date fields of the
clock (time loop), and more generally leave the whole step pipeline alone;
collected here because several claims need these frame facts. -/
theorem runTimeSetLoop_frame (polls : List SetPagePoll) :
    ∀ (s : SystemState) (fs : Bool),
      (runTimeSetLoop s fs polls).systemClock.day = s.systemClock.day ∧
      (runTimeSetLoop s fs polls).systemClock.month = s.systemClock.month ∧
      (runTimeSetLoop s fs polls).totalSteps = s.totalSteps ∧
      (runTimeSetLoop s fs polls).stepsPerSecond = s.stepsPerSecond ∧
      (runTimeSetLoop s fs polls).currentSecondIndex = s.currentSecondIndex ∧
      (runTimeSetLoop s fs polls).currentStepPace = s.currentStepPace ∧
      (runTimeSetLoop s fs polls).displayedStepPace = s.displayedStepPace ∧
      (runTimeSetLoop s fs polls).wasStepThresholdExceeded = s.wasStepThresholdExceeded ∧
      (runTimeSetLoop s fs polls).stepRateHistory = s.stepRateHistory := by
  induction polls with
  | nil => intro s fs; simp [runTimeSetLoop]
  | cons p rest ih =>
    intro s fs
    simp only [runTimeSetLoop]
    split
    · simp [commitTimeSet]
    · simpa using ih { s with timeToSet :=
        (processTimeSetInput fs s.timeToSet p.button1 p.button2).2 }
        (processTimeSetInput fs s.timeToSet p.button1 p.button2).1

/-- Mirror frame facts for the set-date poll loop: the time-of-day fields of
the clock and the step pipeline are untouched. -/
theorem runDateSetLoop_frame (polls : List SetPagePoll) :
    ∀ (s : SystemState) (fs : Bool),
      (runDateSetLoop s fs polls).systemClock.hours = s.systemClock.hours ∧
      (runDateSetLoop s fs polls).systemClock.minutes = s.systemClock.minutes ∧
      (runDateSetLoop s fs polls).systemClock.seconds = s.systemClock.seconds ∧
      (runDateSetLoop s fs polls).totalSteps = s.totalSteps ∧
      (runDateSetLoop s fs polls).stepsPerSecond = s.stepsPerSecond ∧
      (runDateSetLoop s fs polls).currentSecondIndex = s.currentSecondIndex ∧
      (runDateSetLoop s fs polls).currentStepPace = s.currentStepPace ∧
      (runDateSetLoop s fs polls).displayedStepPace = s.displayedStepPace ∧
      (runDateSetLoop s fs polls).wasStepThresholdExceeded = s.wasStepThresholdExceeded ∧
      (runDateSetLoop s fs polls).stepRateHistory = s.stepRateHistory := by
  induction polls with
  | nil => intro s fs; simp [runDateSetLoop]
  | cons p rest ih =>
    intro s fs
    simp only [runDateSetLoop]
    split
    · simp [commitDateSet]
    · simpa using ih { s with dateToSet :=
        (processDateSetInput fs s.dateToSet p.button1 p.button2).2 }
        (processDateSetInput fs s.dateToSet p.button1 p.button2).1

/-! ## C7 -/

/-- C7: in MainMenu, for every selection index in 0..4, a button-1 single
press decrements the index wrapping 0 to 4, a button-2 single press
increments it wrapping 4 to 0, and the index stays in 0..4. -/
theorem mainMenu_selection_wrap (sel : Nat) (h : sel < MENU_ITEM_COUNT) :
    menuSelectionOnButton1 0 = MENU_ITEM_COUNT - 1 ∧
    menuSelectionOnButton2 (MENU_ITEM_COUNT - 1) = 0 ∧
    (0 < sel → menuSelectionOnButton1 sel = sel - 1) ∧
    (sel < MENU_ITEM_COUNT - 1 → menuSelectionOnButton2 sel = sel + 1) ∧
    menuSelectionOnButton1 sel < MENU_ITEM_COUNT ∧
    menuSelectionOnButton2 sel < MENU_ITEM_COUNT := by
  unfold MENU_ITEM_COUNT at h
  unfold menuSelectionOnButton1 menuSelectionOnButton2 MENU_ITEM_COUNT
  refine ⟨?_, ?_, ?_, ?_, ?_, ?_⟩ <;> intros <;> split_ifs <;> omega

/-- Concrete instantiation of `mainMenu_selection_wrap` at index 4. -/
theorem mainMenu_selection_wrap_witness :
    4 < MENU_ITEM_COUNT ∧
    (menuSelectionOnButton1 0 = MENU_ITEM_COUNT - 1 ∧
     menuSelectionOnButton2 (MENU_ITEM_COUNT - 1) = 0 ∧
     (0 < 4 → menuSelectionOnButton1 4 = 4 - 1) ∧
     (4 < MENU_ITEM_COUNT - 1 → menuSelectionOnButton2 4 = 4 + 1) ∧
     menuSelectionOnButton1 4 < MENU_ITEM_COUNT ∧
     menuSelectionOnButton2 4 < MENU_ITEM_COUNT) :=
  ⟨by decide, mainMenu_selection_wrap 4 (by decide)⟩

/-! ## C6 -/

/-- C6: in the set-date flow, for every valid staged date, incrementing the
day wraps within the active month's day count (last day to 1), decrementing
wraps 1 to the day count, changing the month in either direction clamps an
out-of-range staged day down to the new month's day count, and after any
`processDateSetInput` operation the staged day never exceeds the active
month's day bound. -/
theorem dateSetInput_wrap_clamp (d : DateSetting) (b1 b2 fs : Bool)
    (h : validDate d) :
    (dateDayIncrement d).day =
      (if d.day = daysInMonth d.month then 1 else d.day + 1) ∧
    (dateDayIncrement d).month = d.month ∧
    (dateDayDecrement d).day =
      (if d.day = 1 then daysInMonth d.month else d.day - 1) ∧
    (dateDayDecrement d).month = d.month ∧
    ((dateMonthIncrement d).day ≤ daysInMonth (dateMonthIncrement d).month ∧
      (daysInMonth (dateMonthIncrement d).month < d.day →
        (dateMonthIncrement d).day = daysInMonth (dateMonthIncrement d).month) ∧
      (d.day ≤ daysInMonth (dateMonthIncrement d).month →
        (dateMonthIncrement d).day = d.day)) ∧
    ((dateMonthDecrement d).day ≤ daysInMonth (dateMonthDecrement d).month ∧
      (daysInMonth (dateMonthDecrement d).month < d.day →
        (dateMonthDecrement d).day = daysInMonth (dateMonthDecrement d).month) ∧
      (d.day ≤ daysInMonth (dateMonthDecrement d).month →
        (dateMonthDecrement d).day = d.day)) ∧
    validDate (processDateSetInput fs d b1 b2).2 := by
  obtain ⟨day, month⟩ := d
  unfold validDate at h
  obtain ⟨hm1, hm2, hd1, hd4⟩ := h
  dsimp only at hm1 hm2 hd1 hd4
  have hmax1 : 1 ≤ daysInMonth month := le_trans hd1 hd4
  have hmodlt : day % daysInMonth month < daysInMonth month := Nat.mod_lt _ (by omega)
  have hinc : (dateDayIncrement ⟨day, month⟩).day =
      (if day = daysInMonth month then 1 else day + 1) := by
    by_cases hd : day = daysInMonth month
    · simp [dateDayIncrement, hd, Nat.mod_self]
    · have hlt : day < daysInMonth month := lt_of_le_of_ne hd4 hd
      simp [dateDayIncrement, hd, Nat.mod_eq_of_lt hlt]
  have hvalid_inc : validDate (dateDayIncrement ⟨day, month⟩) := by
    simp only [validDate, dateDayIncrement]
    exact ⟨hm1, hm2, by omega, by omega⟩
  have hvalid_dec : validDate (dateDayDecrement ⟨day, month⟩) := by
    simp only [validDate, dateDayDecrement]
    split_ifs <;> dsimp only <;> exact ⟨hm1, hm2, by omega, by omega⟩
  have hmi2 : month % 12 < 12 := Nat.mod_lt _ (by omega)
  have hmi_max : 1 ≤ daysInMonth ((month % 12) + 1) :=
    one_le_daysInMonth _ (by omega) (by omega)
  have hmdm1 : 1 ≤ (if month = 1 then 12 else month - 1) := by split_ifs <;> omega
  have hmdm2 : (if month = 1 then 12 else month - 1) ≤ 12 := by split_ifs <;> omega
  have hmd_max : 1 ≤ daysInMonth (if month = 1 then 12 else month - 1) :=
    one_le_daysInMonth _ hmdm1 hmdm2
  have hvalid_mi : validDate (dateMonthIncrement ⟨day, month⟩) := by
    simp only [validDate, dateMonthIncrement]
    refine ⟨by omega, by omega, ?_, ?_⟩ <;> split_ifs <;> omega
  have hvalid_md : validDate (dateMonthDecrement ⟨day, month⟩) := by
    simp only [validDate, dateMonthDecrement]
    set K := daysInMonth (if month = 1 then 12 else month - 1) with hK
    refine ⟨hmdm1, hmdm2, ?_, ?_⟩ <;> split_ifs <;> omega
  refine ⟨hinc, rfl, ?_, ?_, ⟨?_, ?_, ?_⟩, ⟨?_, ?_, ?_⟩, ?_⟩
  · unfold dateDayDecrement; split_ifs <;> rfl
  · unfold dateDayDecrement; split_ifs <;> rfl
  · simp only [dateMonthIncrement]
    split_ifs <;> omega
  · simp only [dateMonthIncrement]
    intro hgt
    split_ifs <;> omega
  · simp only [dateMonthIncrement]
    intro hle
    split_ifs <;> omega
  · simp only [dateMonthDecrement]
    set K := daysInMonth (if month = 1 then 12 else month - 1) with hK
    split_ifs <;> omega
  · simp only [dateMonthDecrement]
    set K := daysInMonth (if month = 1 then 12 else month - 1) with hK
    intro hgt
    split_ifs <;> omega
  · simp only [dateMonthDecrement]
    set K := daysInMonth (if month = 1 then 12 else month - 1) with hK
    intro hle
    split_ifs <;> omega
  · simp only [processDateSetInput]
    cases fs <;> split_ifs <;> dsimp only <;>
      first
        | exact ⟨hm1, hm2, hd1, hd4⟩
        | exact hvalid_inc
        | exact hvalid_dec
        | exact hvalid_mi
        | exact hvalid_md

/-- Concrete instantiation of `dateSetInput_wrap_clamp`: staged date
January 31, month increment clamps the day to February 28. -/
theorem dateSetInput_wrap_clamp_witness :
    validDate ⟨31, 1⟩ ∧
    ((dateDayIncrement ⟨31, 1⟩).day =
       (if (31 : Nat) = daysInMonth 1 then 1 else 31 + 1) ∧
     (dateDayIncrement ⟨31, 1⟩).month = 1 ∧
     (dateDayDecrement ⟨31, 1⟩).day =
       (if (31 : Nat) = 1 then daysInMonth 1 else 31 - 1) ∧
     (dateDayDecrement ⟨31, 1⟩).month = 1 ∧
     ((dateMonthIncrement ⟨31, 1⟩).day ≤ daysInMonth (dateMonthIncrement ⟨31, 1⟩).month ∧
       (daysInMonth (dateMonthIncrement ⟨31, 1⟩).month < 31 →
         (dateMonthIncrement ⟨31, 1⟩).day = daysInMonth (dateMonthIncrement ⟨31, 1⟩).month) ∧
       ((31 : Nat) ≤ daysInMonth (dateMonthIncrement ⟨31, 1⟩).month →
         (dateMonthIncrement ⟨31, 1⟩).day = 31)) ∧
     ((dateMonthDecrement ⟨31, 1⟩).day ≤ daysInMonth (dateMonthDecrement ⟨31, 1⟩).month ∧
       (daysInMonth (dateMonthDecrement ⟨31, 1⟩).month < 31 →
         (dateMonthDecrement ⟨31, 1⟩).day = daysInMonth (dateMonthDecrement ⟨31, 1⟩).month) ∧
       ((31 : Nat) ≤ daysInMonth (dateMonthDecrement ⟨31, 1⟩).month →
         (dateMonthDecrement ⟨31, 1⟩).day = 31)) ∧
     validDate (processDateSetInput true ⟨31, 1⟩ true false).2) :=
  ⟨by decide, dateSetInput_wrap_clamp ⟨31, 1⟩ true false true (by decide)⟩

/-! ## C10 -/

/-- C10: tilt-confirmation of the set-time flow overwrites hours and minutes
with the draft, resets seconds to exactly 0, and leaves day and month
unchanged; tilt-confirmation of the set-date flow overwrites day and month
with the draft and leaves hours, minutes and seconds unchanged. The
loop-level conjuncts add that the whole set-time flow can never change the
clock's date fields, and the whole set-date flow can never change its
time-of-day fields, commit or not. -/
theorem setFlow_commit_fields (clock : ClockTime) (td : TimeSetting)
    (dd : DateSetting) (s : SystemState) (fs1 fs2 : Bool)
    (polls1 polls2 : List SetPagePoll) :
    (commitTimeSet clock td).hours = td.hours ∧
    (commitTimeSet clock td).minutes = td.minutes ∧
    (commitTimeSet clock td).seconds = 0 ∧
    (commitTimeSet clock td).day = clock.day ∧
    (commitTimeSet clock td).month = clock.month ∧
    (commitDateSet clock dd).day = dd.day ∧
    (commitDateSet clock dd).month = dd.month ∧
    (commitDateSet clock dd).hours = clock.hours ∧
    (commitDateSet clock dd).minutes = clock.minutes ∧
    (commitDateSet clock dd).seconds = clock.seconds ∧
    (runTimeSetLoop s fs1 polls1).systemClock.day = s.systemClock.day ∧
    (runTimeSetLoop s fs1 polls1).systemClock.month = s.systemClock.month ∧
    (runDateSetLoop s fs2 polls2).systemClock.hours = s.systemClock.hours ∧
    (runDateSetLoop s fs2 polls2).systemClock.minutes = s.systemClock.minutes ∧
    (runDateSetLoop s fs2 polls2).systemClock.seconds = s.systemClock.seconds := by
  obtain ⟨ht1, ht2, -, -, -, -, -, -, -⟩ := runTimeSetLoop_frame polls1 s fs1
  obtain ⟨hd1, hd2, hd3, -, -, -, -, -, -, -⟩ := runDateSetLoop_frame polls2 s fs2
  exact ⟨rfl, rfl, rfl, rfl, rfl, rfl, rfl, rfl, rfl, rfl, ht1, ht2, hd1, hd2, hd3⟩

/-! ## C5 -/

/-- C5: in the set-time flow the draft commits only once a streak of
`TILT_STREAK` consecutive level polls (magnitude strictly below the tilt
threshold) is reached; one poll at or above the threshold resets the streak
counter to 0 with no commit; while the streak is unmet nothing commits, and
a poll sequence with no level poll leaves the system clock untouched. -/
theorem tiltConfirm_streak (s : TiltLoopState) (mag : ℚ) (mags : List ℚ)
    (sys : SystemState) (fs : Bool) (polls : List SetPagePoll)
    (h : s.committed = false) :
    (checkTiltToSave mag = false →
      tiltPoll s mag = { tiltCount := 0, committed := false }) ∧
    ((tiltPoll s mag).committed = true ↔
      checkTiltToSave mag = true ∧ TILT_STREAK ≤ s.tiltCount + 1) ∧
    ((∀ x ∈ mags, checkTiltToSave x = false) →
      (runTiltPolls s mags).committed = false) ∧
    ((∀ p ∈ polls, checkTiltToSave p.magnitude = false) →
      (runTimeSetLoop sys fs polls).systemClock = sys.systemClock) := by
  refine ⟨?_, ?_, ?_, ?_⟩
  · intro hlev
    simp [tiltPoll, h, hlev]
  · simp only [tiltPoll, h]
    constructor
    · intro hc
      by_cases hlev : checkTiltToSave mag = true
      · simp only [hlev, if_true] at hc
        refine ⟨hlev, ?_⟩
        by_cases hs : TILT_STREAK ≤ s.tiltCount + 1
        · exact hs
        · have hone : TILT_STREAK ≤ s.tiltCount + 1 := by unfold TILT_STREAK; omega
          exact absurd hone hs
      · simp only [Bool.not_eq_true] at hlev
        simp [hlev, h] at hc
    · rintro ⟨hlev, hs⟩
      simp [hlev, hs]
  · intro hall
    induction mags generalizing s with
    | nil => simpa [runTiltPolls] using h
    | cons m rest ih =>
      have hm : checkTiltToSave m = false := hall m (by simp)
      have hstep : tiltPoll s m = { tiltCount := 0, committed := false } := by
        simp [tiltPoll, h, hm]
      simp only [runTiltPolls, List.foldl_cons]
      have := ih { tiltCount := 0, committed := false } rfl
        (fun x hx => hall x (by simp [hx]))
      simpa [runTiltPolls, hstep] using this
  · intro hall
    induction polls generalizing sys fs with
    | nil => simp [runTimeSetLoop]
    | cons p rest ih =>
      have hp : checkTiltToSave p.magnitude = false := hall p (by simp)
      simp only [runTimeSetLoop, hp, Bool.false_eq_true, if_false]
      exact ih _ _ (fun q hq => hall q (by simp [hq]))

/-- A concrete system state used to instantiate the tilt-confirm theorem. -/
def c5WitnessState : SystemState :=
  { systemClock := ⟨4, 0, 0, 24, 1⟩, elapsedSeconds := 0, showFootIcon := false,
    isGraphDisplayed := false, inMainMenu := true, redrawClock := false,
    currentMenuSelection := 2, button1HoldCount := 0, currentSecondIndex := 0,
    stepsPerSecond := List.replicate 60 0, previousStepCount := 0,
    inactivityCount := 0, totalSteps := 0, wasStepThresholdExceeded := false,
    isMovementActive := false, currentStepPace := 0, displayedStepPace := 0,
    stepRateHistory := List.replicate 90 0, use12HourFormat := true,
    timeToSet := ⟨4, 0⟩, dateToSet := ⟨24, 1⟩ }

/-- Concrete instantiation of `tiltConfirm_streak`: streak at 0, an unlevel
poll (magnitude 700) resets with no commit, and a level poll (magnitude 300)
commits at once since the required streak is 1. -/
theorem tiltConfirm_streak_witness :
    ({ tiltCount := 0, committed := false } : TiltLoopState).committed = false ∧
    ((checkTiltToSave 700 = false →
        tiltPoll { tiltCount := 0, committed := false } 700 =
          { tiltCount := 0, committed := false }) ∧
      ((tiltPoll { tiltCount := 0, committed := false } 700).committed = true ↔
        checkTiltToSave 700 = true ∧
          TILT_STREAK ≤ ({ tiltCount := 0, committed := false } : TiltLoopState).tiltCount + 1) ∧
      ((∀ x ∈ [(700 : ℚ), 900], checkTiltToSave x = false) →
        (runTiltPolls { tiltCount := 0, committed := false } [700, 900]).committed = false) ∧
      ((∀ p ∈ ([] : List SetPagePoll), checkTiltToSave p.magnitude = false) →
        (runTimeSetLoop c5WitnessState false []).systemClock =
          c5WitnessState.systemClock)) :=
  ⟨rfl, tiltConfirm_streak { tiltCount := 0, committed := false } 700 [700, 900]
    c5WitnessState false [] rfl⟩

/-! ## C8 -/

/-- C8: every register read in the sensor path is retried up to 3 times with
a fixed 10 ms inter-attempt delay; the first success returns that attempt's
value with no halt (and as many delays as failed attempts preceded it);
exhaustion of all 3 attempts yields the fatal halt with the diagnostic
message — the outcome dichotomy leaves no third possibility, so no bus error
is silently swallowed. At the axis level, exhaustion on the low- or
high-byte read halts with the corresponding diagnostic, and success on both
returns the composed signed sample. -/
theorem sensorRead_retry_fatal (attempts lowGood highGood : Nat → I2CResult)
    (msg : String) (lo hi : Nat) :
    ((∃ k, k < 3 ∧ ∃ v, attempts k = I2CResult.ok v ∧
        (∀ j, j < k → attempts j = I2CResult.error) ∧
        (retryRead attempts msg).1 = Except.ok v ∧
        (retryRead attempts msg).2 = k) ∨
      ((∀ k, k < 3 → attempts k = I2CResult.error) ∧
        (retryRead attempts msg).1 = Except.error msg)) ∧
    ((∀ k, k < 3 → attempts k = I2CResult.error) →
      readAccelerometerAxis attempts highGood = Except.error "I2C Read Error (LSB)") ∧
    ((lowGood 0 = I2CResult.ok lo) → (∀ k, k < 3 → attempts k = I2CResult.error) →
      readAccelerometerAxis lowGood attempts = Except.error "I2C Read Error (MSB)") ∧
    ((lowGood 0 = I2CResult.ok lo) → (highGood 0 = I2CResult.ok hi) →
      readAccelerometerAxis lowGood highGood = Except.ok (toInt16 (hi * 256 + lo))) := by
  have hdich : (∃ k, k < 3 ∧ ∃ v, attempts k = I2CResult.ok v ∧
      (∀ j, j < k → attempts j = I2CResult.error) ∧
      (retryRead attempts msg).1 = Except.ok v ∧
      (retryRead attempts msg).2 = k) ∨
      ((∀ k, k < 3 → attempts k = I2CResult.error) ∧
        (retryRead attempts msg).1 = Except.error msg) := by
    cases h0 : attempts 0 with
    | ok v =>
      exact Or.inl ⟨0, by omega, v, h0, fun j hj => absurd hj (by omega),
        by simp [retryRead, h0], by simp [retryRead, h0]⟩
    | error =>
      cases h1 : attempts 1 with
      | ok v =>
        refine Or.inl ⟨1, by omega, v, h1, ?_, by simp [retryRead, h0, h1],
          by simp [retryRead, h0, h1]⟩
        intro j hj
        interval_cases j
        exact h0
      | error =>
        cases h2 : attempts 2 with
        | ok v =>
          refine Or.inl ⟨2, by omega, v, h2, ?_, by simp [retryRead, h0, h1, h2],
            by simp [retryRead, h0, h1, h2]⟩
          intro j hj
          interval_cases j
          · exact h0
          · exact h1
        | error =>
          refine Or.inr ⟨?_, by simp [retryRead, h0, h1, h2]⟩
          intro k hk
          interval_cases k
          · exact h0
          · exact h1
          · exact h2
  refine ⟨hdich, ?_, ?_, ?_⟩
  · intro hall
    have h0 := hall 0 (by omega)
    have h1 := hall 1 (by omega)
    have h2 := hall 2 (by omega)
    simp [readAccelerometerAxis, retryRead, h0, h1, h2]
  · intro hlo hall
    have h0 := hall 0 (by omega)
    have h1 := hall 1 (by omega)
    have h2 := hall 2 (by omega)
    simp [readAccelerometerAxis, retryRead, hlo, h0, h1, h2]
  · intro hlo hhi
    simp [readAccelerometerAxis, retryRead, hlo, hhi]

/-- Concrete instantiation of `sensorRead_retry_fatal`: an oracle that fails
on attempts 0 and 1 and succeeds with byte 18 on attempt 2 (exercising both
retry delays), together with single-success low/high oracles composing the
sample 0x0312 = 786. -/
theorem sensorRead_retry_fatal_witness :
    ((fun k => if k = 0 then I2CResult.ok 18 else I2CResult.error) 0 =
        I2CResult.ok 18) ∧
    ((fun k => if k = 0 then I2CResult.ok 3 else I2CResult.error) 0 =
        I2CResult.ok 3) ∧
    (((∃ k, k < 3 ∧ ∃ v,
        (fun i => if i = 2 then I2CResult.ok 18 else I2CResult.error) k =
          I2CResult.ok v ∧
        (∀ j, j < k →
          (fun i => if i = 2 then I2CResult.ok 18 else I2CResult.error) j =
            I2CResult.error) ∧
        (retryRead (fun i => if i = 2 then I2CResult.ok 18 else I2CResult.error)
            "I2C Read Error (LSB)").1 = Except.ok v ∧
        (retryRead (fun i => if i = 2 then I2CResult.ok 18 else I2CResult.error)
            "I2C Read Error (LSB)").2 = k) ∨
      ((∀ k, k < 3 →
          (fun i => if i = 2 then I2CResult.ok 18 else I2CResult.error) k =
            I2CResult.error) ∧
        (retryRead (fun i => if i = 2 then I2CResult.ok 18 else I2CResult.error)
            "I2C Read Error (LSB)").1 = Except.error "I2C Read Error (LSB)")) ∧
    ((∀ k, k < 3 →
        (fun i => if i = 2 then I2CResult.ok 18 else I2CResult.error) k =
          I2CResult.error) →
      readAccelerometerAxis
          (fun i => if i = 2 then I2CResult.ok 18 else I2CResult.error)
          (fun k => if k = 0 then I2CResult.ok 3 else I2CResult.error) =
        Except.error "I2C Read Error (LSB)") ∧
    (((fun k => if k = 0 then I2CResult.ok 18 else I2CResult.error) 0 =
        I2CResult.ok 18) →
      (∀ k, k < 3 →
        (fun i => if i = 2 then I2CResult.ok 18 else I2CResult.error) k =
          I2CResult.error) →
      readAccelerometerAxis
          (fun k => if k = 0 then I2CResult.ok 18 else I2CResult.error)
          (fun i => if i = 2 then I2CResult.ok 18 else I2CResult.error) =
        Except.error "I2C Read Error (MSB)") ∧
    (((fun k => if k = 0 then I2CResult.ok 18 else I2CResult.error) 0 =
        I2CResult.ok 18) →
      ((fun k => if k = 0 then I2CResult.ok 3 else I2CResult.error) 0 =
        I2CResult.ok 3) →
      readAccelerometerAxis
          (fun k => if k = 0 then I2CResult.ok 18 else I2CResult.error)
          (fun k => if k = 0 then I2CResult.ok 3 else I2CResult.error) =
        Except.ok (toInt16 (3 * 256 + 18)))) :=
  ⟨rfl, rfl,
    sensorRead_retry_fatal
      (fun i => if i = 2 then I2CResult.ok 18 else I2CResult.error)
      (fun k => if k = 0 then I2CResult.ok 18 else I2CResult.error)
      (fun k => if k = 0 then I2CResult.ok 3 else I2CResult.error)
      "I2C Read Error (LSB)" 18 3⟩

/-! ## C3 -/

/-- A reachable shared state for the tick-handler exhibit: clock face shown
(not in menu, graph hidden) and button 1 already held for one tick. -/
def c3FailingState : SystemState :=
  { systemClock := ⟨4, 0, 0, 24, 1⟩, elapsedSeconds := 0, showFootIcon := false,
    isGraphDisplayed := false, inMainMenu := false, redrawClock := false,
    currentMenuSelection := 0, button1HoldCount := 1, currentSecondIndex := 0,
    stepsPerSecond := List.replicate 60 0, previousStepCount := 0,
    inactivityCount := 0, totalSteps := 0, wasStepThresholdExceeded := false,
    isMovementActive := false, currentStepPace := 0, displayedStepPace := 0,
    stepRateHistory := List.replicate 90 0, use12HourFormat := true,
    timeToSet := ⟨4, 0⟩, dateToSet := ⟨24, 1⟩ }

/-- C3 exhibit: with the graph hidden, the menu not yet active, and button 1
on its second consecutive held tick, the timer interrupt itself renders the
main menu — a call into the display collaborator — and blocks in a 10 ms
delay, contradicting the required effect frame of the tick handler. -/
theorem tickHandler_calls_display_and_blocks :
    TickEffect.displayCall ∈ (tickInterrupt c3FailingState true).2 ∧
    TickEffect.delayMs 10 ∈ (tickInterrupt c3FailingState true).2 ∧
    (tickInterrupt c3FailingState true).1.inMainMenu = true := by
  refine ⟨?_, ?_, ?_⟩ <;> simp [tickInterrupt, c3FailingState]

/-! ## C9 -/

/-- The whole set-time page (staging plus poll loop) leaves the step
pipeline untouched. -/
theorem manageTimeSetPage_frame (s : SystemState) (polls : List SetPagePoll) :
    (manageTimeSetPage s polls).totalSteps = s.totalSteps ∧
    (manageTimeSetPage s polls).stepsPerSecond = s.stepsPerSecond ∧
    (manageTimeSetPage s polls).currentSecondIndex = s.currentSecondIndex ∧
    (manageTimeSetPage s polls).currentStepPace = s.currentStepPace ∧
    (manageTimeSetPage s polls).displayedStepPace = s.displayedStepPace ∧
    (manageTimeSetPage s polls).wasStepThresholdExceeded = s.wasStepThresholdExceeded ∧
    (manageTimeSetPage s polls).stepRateHistory = s.stepRateHistory := by
  unfold manageTimeSetPage
  have hfr := runTimeSetLoop_frame polls
    { s with timeToSet :=
        { hours := s.systemClock.hours, minutes := s.systemClock.minutes } } false
  exact ⟨hfr.2.2.1, hfr.2.2.2.1, hfr.2.2.2.2.1, hfr.2.2.2.2.2.1,
    hfr.2.2.2.2.2.2.1, hfr.2.2.2.2.2.2.2.1, hfr.2.2.2.2.2.2.2.2⟩

/-- The whole set-date page leaves the step pipeline untouched. -/
theorem manageDateSetPage_frame (s : SystemState) (polls : List SetPagePoll) :
    (manageDateSetPage s polls).totalSteps = s.totalSteps ∧
    (manageDateSetPage s polls).stepsPerSecond = s.stepsPerSecond ∧
    (manageDateSetPage s polls).currentSecondIndex = s.currentSecondIndex ∧
    (manageDateSetPage s polls).currentStepPace = s.currentStepPace ∧
    (manageDateSetPage s polls).displayedStepPace = s.displayedStepPace ∧
    (manageDateSetPage s polls).wasStepThresholdExceeded = s.wasStepThresholdExceeded ∧
    (manageDateSetPage s polls).stepRateHistory = s.stepRateHistory := by
  unfold manageDateSetPage
  have hfr := runDateSetLoop_frame polls
    { s with dateToSet :=
        { day := s.systemClock.day, month := s.systemClock.month } } false
  exact ⟨hfr.2.2.2.1, hfr.2.2.2.2.1, hfr.2.2.2.2.2.1, hfr.2.2.2.2.2.2.1,
    hfr.2.2.2.2.2.2.2.1, hfr.2.2.2.2.2.2.2.2.1, hfr.2.2.2.2.2.2.2.2.2⟩

/-- Every MainMenu dispatch target leaves the step pipeline untouched. -/
theorem executeMenuSelection_frame (s : SystemState) (inp : MenuDispatchInput) :
    (executeMenuSelection s inp).totalSteps = s.totalSteps ∧
    (executeMenuSelection s inp).stepsPerSecond = s.stepsPerSecond ∧
    (executeMenuSelection s inp).currentSecondIndex = s.currentSecondIndex ∧
    (executeMenuSelection s inp).currentStepPace = s.currentStepPace ∧
    (executeMenuSelection s inp).displayedStepPace = s.displayedStepPace ∧
    (executeMenuSelection s inp).wasStepThresholdExceeded = s.wasStepThresholdExceeded ∧
    (executeMenuSelection s inp).stepRateHistory = s.stepRateHistory := by
  unfold executeMenuSelection
  split
  · unfold displayStepGraph
    split_ifs <;> exact ⟨rfl, rfl, rfl, rfl, rfl, rfl, rfl⟩
  · exact ⟨rfl, rfl, rfl, rfl, rfl, rfl, rfl⟩
  · exact manageTimeSetPage_frame s inp.timePolls
  · exact manageDateSetPage_frame s inp.datePolls
  · exact ⟨rfl, rfl, rfl, rfl, rfl, rfl, rfl⟩
  · exact ⟨rfl, rfl, rfl, rfl, rfl, rfl, rfl⟩

/-- C9: while the in-main-menu flag is set, the tick handler leaves the
per-second bucket ring, its rotating index, the raw pace, and the step
total unchanged while the clock, the elapsed-seconds counter and the blink
flag still advance; and the foreground menu-mode iteration performs no step
sampling — the step total, buckets, pace values and edge flag are frozen. -/
theorem menuMode_freezes_stepPipeline (s : SystemState) (b : Bool)
    (e : MenuEvent) (h : s.inMainMenu = true) :
    ((tickInterrupt s b).1.currentSecondIndex = s.currentSecondIndex ∧
     (tickInterrupt s b).1.stepsPerSecond = s.stepsPerSecond ∧
     (tickInterrupt s b).1.currentStepPace = s.currentStepPace ∧
     (tickInterrupt s b).1.totalSteps = s.totalSteps ∧
     (tickInterrupt s b).1.systemClock = incrementSystemTime s.systemClock ∧
     (tickInterrupt s b).1.elapsedSeconds = s.elapsedSeconds + 1 ∧
     (tickInterrupt s b).1.showFootIcon = !s.showFootIcon) ∧
    ((fgMenuIteration s e).totalSteps = s.totalSteps ∧
     (fgMenuIteration s e).stepsPerSecond = s.stepsPerSecond ∧
     (fgMenuIteration s e).currentSecondIndex = s.currentSecondIndex ∧
     (fgMenuIteration s e).currentStepPace = s.currentStepPace ∧
     (fgMenuIteration s e).displayedStepPace = s.displayedStepPace ∧
     (fgMenuIteration s e).wasStepThresholdExceeded = s.wasStepThresholdExceeded) := by
  constructor
  · simp only [tickInterrupt, h]
    split_ifs <;> simp_all
  · cases e with
    | comboConfirm inp =>
      have hfr := executeMenuSelection_frame s inp
      simp only [fgMenuIteration]
      exact ⟨hfr.1, hfr.2.1, hfr.2.2.1, hfr.2.2.2.1, hfr.2.2.2.2.1,
        hfr.2.2.2.2.2.1⟩
    | button1Press => exact ⟨rfl, rfl, rfl, rfl, rfl, rfl⟩
    | button2Press => exact ⟨rfl, rfl, rfl, rfl, rfl, rfl⟩
    | idle => exact ⟨rfl, rfl, rfl, rfl, rfl, rfl⟩

/-- A concrete menu-mode state instantiating the menu freeze theorem. -/
def c9WitnessState : SystemState :=
  { systemClock := ⟨12, 30, 15, 5, 6⟩, elapsedSeconds := 100, showFootIcon := true,
    isGraphDisplayed := false, inMainMenu := true, redrawClock := false,
    currentMenuSelection := 1, button1HoldCount := 0, currentSecondIndex := 7,
    stepsPerSecond := List.replicate 60 2, previousStepCount := 40,
    inactivityCount := 0, totalSteps := 42, wasStepThresholdExceeded := true,
    isMovementActive := true, currentStepPace := 120, displayedStepPace := 80,
    stepRateHistory := List.replicate 90 1, use12HourFormat := false,
    timeToSet := ⟨12, 30⟩, dateToSet := ⟨5, 6⟩ }

/-- Concrete instantiation of `menuMode_freezes_stepPipeline` at a menu-mode
state with a held button and an idle foreground iteration. -/
theorem menuMode_freezes_stepPipeline_witness :
    c9WitnessState.inMainMenu = true ∧
    (((tickInterrupt c9WitnessState true).1.currentSecondIndex =
        c9WitnessState.currentSecondIndex ∧
      (tickInterrupt c9WitnessState true).1.stepsPerSecond =
        c9WitnessState.stepsPerSecond ∧
      (tickInterrupt c9WitnessState true).1.currentStepPace =
        c9WitnessState.currentStepPace ∧
      (tickInterrupt c9WitnessState true).1.totalSteps =
        c9WitnessState.totalSteps ∧
      (tickInterrupt c9WitnessState true).1.systemClock =
        incrementSystemTime c9WitnessState.systemClock ∧
      (tickInterrupt c9WitnessState true).1.elapsedSeconds =
        c9WitnessState.elapsedSeconds + 1 ∧
      (tickInterrupt c9WitnessState true).1.showFootIcon =
        !c9WitnessState.showFootIcon) ∧
    ((fgMenuIteration c9WitnessState MenuEvent.idle).totalSteps =
        c9WitnessState.totalSteps ∧
      (fgMenuIteration c9WitnessState MenuEvent.idle).stepsPerSecond =
        c9WitnessState.stepsPerSecond ∧
      (fgMenuIteration c9WitnessState MenuEvent.idle).currentSecondIndex =
        c9WitnessState.currentSecondIndex ∧
      (fgMenuIteration c9WitnessState MenuEvent.idle).currentStepPace =
        c9WitnessState.currentStepPace ∧
      (fgMenuIteration c9WitnessState MenuEvent.idle).displayedStepPace =
        c9WitnessState.displayedStepPace ∧
      (fgMenuIteration c9WitnessState MenuEvent.idle).wasStepThresholdExceeded =
        c9WitnessState.wasStepThresholdExceeded)) :=
  ⟨rfl, menuMode_freezes_stepPipeline c9WitnessState true MenuEvent.idle rfl⟩

/-! ## C1 -/

/-- Running the detector adds exactly the number of rising edges of the
thresholded sample sequence (relative to the incoming edge flag) to both the
step total and the bucket slot, and leaves the edge flag equal to the last
thresholded sample. -/
theorem runDetect_counts_risingEdges (mags : List ℚ) :
    ∀ s : StepState,
      (runDetect mags s).totalSteps =
        s.totalSteps + risingEdges s.wasStepThresholdExceeded (mags.map stepAbove) ∧
      (runDetect mags s).bucket =
        s.bucket + risingEdges s.wasStepThresholdExceeded (mags.map stepAbove) ∧
      (runDetect mags s).wasStepThresholdExceeded =
        (mags.map stepAbove).getLastD s.wasStepThresholdExceeded := by
  induction mags with
  | nil => intro s; simp [runDetect, risingEdges]
  | cons m rest ih =>
    intro s
    have hstep : runDetect (m :: rest) s = runDetect rest (detectStep m s) := by
      simp [runDetect]
    obtain ⟨h1, h2, h3⟩ := ih (detectStep m s)
    have hflag : (detectStep m s).wasStepThresholdExceeded = stepAbove m := rfl
    have htot : (detectStep m s).totalSteps =
        s.totalSteps + (if stepAbove m && !s.wasStepThresholdExceeded then 1 else 0) := by
      simp only [detectStep]
      split_ifs <;> simp_all <;> omega
    have hbuck : (detectStep m s).bucket =
        s.bucket + (if stepAbove m && !s.wasStepThresholdExceeded then 1 else 0) := by
      simp only [detectStep]
      split_ifs <;> simp_all <;> omega
    rw [hstep]
    refine ⟨?_, ?_, ?_⟩
    · rw [h1, htot, hflag]
      simp [risingEdges]
      omega
    · rw [h2, hbuck, hflag]
      simp [risingEdges]
      omega
    · rw [h3, hflag]
      cases rest <;> simp [List.getLastD]

/-- Auxiliary: while already inside a run, leading above-threshold samples
contribute no rising edge. -/
theorem risingEdges_true_dropWhile (l : List Bool) :
    risingEdges true l = risingEdges true (l.dropWhile (fun b => b)) := by
  induction l with
  | nil => rfl
  | cons b rest ih =>
    cases b with
    | true => simpa [risingEdges, List.dropWhile] using ih
    | false => simp [risingEdges, List.dropWhile]

/-- Starting outside a run, the number of rising edges equals the number of
maximal runs of `true`. -/
theorem risingEdges_eq_countTrueRuns : ∀ l : List Bool,
    risingEdges false l = countTrueRuns l
  | [] => by simp [risingEdges, countTrueRuns]
  | false :: rest => by
    have ih := risingEdges_eq_countTrueRuns rest
    simpa [risingEdges, countTrueRuns] using ih
  | true :: rest => by
    have hdw : (rest.dropWhile (fun b => b)).length ≤ rest.length :=
      List.Sublist.length_le (List.dropWhile_sublist (fun b => b))
    have ih := risingEdges_eq_countTrueRuns (rest.dropWhile (fun b => b))
    have haux := risingEdges_true_dropWhile rest
    have hhead : risingEdges true (rest.dropWhile (fun b => b)) =
        risingEdges false (rest.dropWhile (fun b => b)) := by
      have hprop := List.head?_dropWhile_not (fun b => b) rest
      cases hcase : rest.dropWhile (fun b => b) with
      | nil => rfl
      | cons c tail =>
        rw [hcase] at hprop
        simp at hprop
        simp [risingEdges, hprop]
    simp only [risingEdges, countTrueRuns]
    rw [haux, hhead, ih]
    simp
termination_by l => l.length
decreasing_by
  · simp
  · simp only [List.length_cons]
    omega

/-- A sequence with no above-threshold sample has no rising edge. -/
theorem risingEdges_of_all_false (l : List Bool) (prev : Bool)
    (h : ∀ b ∈ l, b = false) : risingEdges prev l = 0 := by
  induction l generalizing prev with
  | nil => rfl
  | cons b rest ih =>
    have hb := h b (by simp)
    subst hb
    simp [risingEdges, ih false (fun x hx => h x (by simp [hx]))]

/-- C1 (amended): starting from a detector whose edge flag is clear, the step
total and the current bucket slot increment exactly once per maximal run of
samples strictly above the step threshold — i.e. only on the rising edge,
when the sample exceeds the threshold and the previous one did not; a
sequence whose dynamic force stays strictly below the threshold never
increments the total; and after every call the edge flag equals whether the
current sample was above threshold. (The original "at or above" phrasing
fails at the exact-threshold boundary, see the counterexample.) -/
theorem stepDetector_risingEdge_amended (mags : List ℚ) (s : StepState) (m : ℚ)
    (h : s.wasStepThresholdExceeded = false) :
    (runDetect mags s).totalSteps =
      s.totalSteps + countTrueRuns (mags.map stepAbove) ∧
    (runDetect mags s).bucket =
      s.bucket + countTrueRuns (mags.map stepAbove) ∧
    ((∀ x ∈ mags, dynamicForce x < STEP_THRESHOLD) →
      (runDetect mags s).totalSteps = s.totalSteps) ∧
    (detectStep m s).wasStepThresholdExceeded =
      decide (STEP_THRESHOLD < dynamicForce m) := by
  obtain ⟨h1, h2, -⟩ := runDetect_counts_risingEdges mags s
  rw [h, risingEdges_eq_countTrueRuns] at h1 h2
  refine ⟨h1, h2, ?_, rfl⟩
  intro hall
  obtain ⟨h1b, -, -⟩ := runDetect_counts_risingEdges mags s
  have hzero : risingEdges s.wasStepThresholdExceeded (mags.map stepAbove) = 0 := by
    refine risingEdges_of_all_false _ _ ?_
    intro b hb
    simp only [List.mem_map] at hb
    obtain ⟨x, hx, hbx⟩ := hb
    subst hbx
    simp only [stepAbove, decide_eq_false_iff_not, not_lt]
    exact le_of_lt (hall x hx)
  rw [h1b, hzero, Nat.add_zero]

/-- Concrete instantiation of `stepDetector_risingEdge_amended`: two runs of
above-threshold samples separated by a quiet sample yield exactly two steps. -/
theorem stepDetector_risingEdge_witness :
    initialStepState.wasStepThresholdExceeded = false ∧
    ((runDetect [2000, 2000, 1024, 2000] initialStepState).totalSteps =
        initialStepState.totalSteps +
          countTrueRuns ([2000, 2000, 1024, 2000].map stepAbove) ∧
      (runDetect [2000, 2000, 1024, 2000] initialStepState).bucket =
        initialStepState.bucket +
          countTrueRuns ([2000, 2000, 1024, 2000].map stepAbove) ∧
      ((∀ x ∈ [(2000 : ℚ), 2000, 1024, 2000], dynamicForce x < STEP_THRESHOLD) →
        (runDetect [2000, 2000, 1024, 2000] initialStepState).totalSteps =
          initialStepState.totalSteps) ∧
      (detectStep 2000 initialStepState).wasStepThresholdExceeded =
        decide (STEP_THRESHOLD < dynamicForce 2000)) :=
  ⟨rfl, stepDetector_risingEdge_amended [2000, 2000, 1024, 2000]
    initialStepState 2000 rfl⟩

/-- C1 as stated is refuted at the threshold boundary: a sample whose dynamic
force is exactly the step threshold is "at or above the threshold" and forms
one maximal such run, yet the detector's strict comparison counts no step
and leaves the bucket slot untouched. -/
theorem stepDetector_at_or_above_counterexample :
    STEP_THRESHOLD ≤ dynamicForce 1924 ∧
    (runDetect [1924] initialStepState).totalSteps = 0 ∧
    (runDetect [1924] initialStepState).bucket = 0 := by
  refine ⟨?_, ?_, ?_⟩
  · norm_num [dynamicForce, GRAVITY_BASELINE, STEP_THRESHOLD]
  · norm_num [runDetect, detectStep, stepAbove, dynamicForce, GRAVITY_BASELINE,
      STEP_THRESHOLD, initialStepState]
  · norm_num [runDetect, detectStep, stepAbove, dynamicForce, GRAVITY_BASELINE,
      STEP_THRESHOLD, initialStepState]

/-! ## C2 -/

/-- A valid clock time denotes fewer than a year's worth of seconds. -/
theorem toSeconds_lt (t : ClockTime) (h : validTime t) :
    toSeconds t < YEAR_SECONDS := by
  obtain ⟨hh, hm, hs, hmo1, hmo2, hd1, hd2⟩ := h
  obtain ⟨H, M, S, D, Mo⟩ := t
  dsimp only at hh hm hs hmo1 hmo2 hd1 hd2 ⊢
  interval_cases Mo <;>
    simp_all [toSeconds, monthStartDay, daysInMonth, DAYS_PER_MONTH,
      YEAR_SECONDS] <;>
    omega

/-- The day-of-year of a valid date is at most 364. -/
theorem dayOfYear_le (Mo D : Nat) (hmo1 : 1 ≤ Mo) (hmo2 : Mo ≤ 12)
    (hd1 : 1 ≤ D) (hd2 : D ≤ daysInMonth Mo) :
    monthStartDay Mo + (D - 1) ≤ 364 := by
  interval_cases Mo <;>
    simp_all [monthStartDay, daysInMonth, DAYS_PER_MONTH] <;> omega

/-- `advanceDate` on a valid date preserves the time-of-day fields, yields a
valid date again, and advances the day-of-year by one modulo 365. -/
theorem advanceDate_spec (H M S D Mo : Nat) (hmo1 : 1 ≤ Mo) (hmo2 : Mo ≤ 12)
    (hd1 : 1 ≤ D) (hd2 : D ≤ daysInMonth Mo) :
    (advanceDate ⟨H, M, S, D, Mo⟩).hours = H ∧
    (advanceDate ⟨H, M, S, D, Mo⟩).minutes = M ∧
    (advanceDate ⟨H, M, S, D, Mo⟩).seconds = S ∧
    1 ≤ (advanceDate ⟨H, M, S, D, Mo⟩).month ∧
    (advanceDate ⟨H, M, S, D, Mo⟩).month ≤ 12 ∧
    1 ≤ (advanceDate ⟨H, M, S, D, Mo⟩).day ∧
    (advanceDate ⟨H, M, S, D, Mo⟩).day ≤
      daysInMonth (advanceDate ⟨H, M, S, D, Mo⟩).month ∧
    monthStartDay (advanceDate ⟨H, M, S, D, Mo⟩).month +
        ((advanceDate ⟨H, M, S, D, Mo⟩).day - 1) =
      (monthStartDay Mo + (D - 1) + 1) % 365 := by
  interval_cases Mo <;>
    (simp_all [advanceDate, daysInMonth, DAYS_PER_MONTH, monthStartDay] <;>
     split_ifs <;> simp_all <;> omega)

/-- One-second advance refined against the modelled 365-day calendar:
validity is preserved and the denotation advances by exactly one second
modulo the year. -/
theorem incrementSystemTime_step (t : ClockTime) (h : validTime t) :
    validTime (incrementSystemTime t) ∧
      toSeconds (incrementSystemTime t) = (toSeconds t + 1) % YEAR_SECONDS := by
  obtain ⟨hh, hm, hs, hmo1, hmo2, hd1, hd2⟩ := h
  obtain ⟨H, M, S, D, Mo⟩ := t
  dsimp only at hh hm hs hmo1 hmo2 hd1 hd2
  have hdoy := dayOfYear_le Mo D hmo1 hmo2 hd1 hd2
  by_cases hS : 60 ≤ S + 1
  · by_cases hM : 60 ≤ M + 1
    · by_cases hH : 24 ≤ H + 1
      · have hres : incrementSystemTime ⟨H, M, S, D, Mo⟩ =
            advanceDate ⟨0, 0, 0, D, Mo⟩ := by
          simp [incrementSystemTime, hS, hM, hH]
        obtain ⟨e1, e2, e3, v1, v2, v3, v4, edoy⟩ :=
          advanceDate_spec 0 0 0 D Mo hmo1 hmo2 hd1 hd2
        rw [hres]
        constructor
        · exact ⟨by rw [e1]; omega, by rw [e2]; omega, by rw [e3]; omega,
            v1, v2, v3, v4⟩
        · unfold toSeconds YEAR_SECONDS
          dsimp only
          rw [e1, e2, e3, edoy]
          omega
      · have hres : incrementSystemTime ⟨H, M, S, D, Mo⟩ =
            ⟨H + 1, 0, 0, D, Mo⟩ := by
          simp [incrementSystemTime, hS, hM, hH]
        rw [hres]
        constructor
        · unfold validTime
          dsimp only
          exact ⟨by omega, by omega, by omega, hmo1, hmo2, hd1, hd2⟩
        · unfold toSeconds YEAR_SECONDS
          dsimp only
          omega
    · have hres : incrementSystemTime ⟨H, M, S, D, Mo⟩ =
          ⟨H, M + 1, 0, D, Mo⟩ := by
        have hH2 : ¬ 24 ≤ H := by omega
        simp [incrementSystemTime, hS, hM, hH2]
      rw [hres]
      constructor
      · unfold validTime
        dsimp only
        exact ⟨by omega, by omega, by omega, hmo1, hmo2, hd1, hd2⟩
      · unfold toSeconds YEAR_SECONDS
        dsimp only
        omega
  · have hres : incrementSystemTime ⟨H, M, S, D, Mo⟩ =
        ⟨H, M, S + 1, D, Mo⟩ := by
      have hM2 : ¬ 60 ≤ M := by omega
      have hH2 : ¬ 24 ≤ H := by omega
      simp [incrementSystemTime, hS, hM2, hH2]
    rw [hres]
    constructor
    · unfold validTime
      dsimp only
      exact ⟨by omega, by omega, by omega, hmo1, hmo2, hd1, hd2⟩
    · unfold toSeconds YEAR_SECONDS
      dsimp only
      omega

/-- Iterated one-second advances stay valid and denote plain addition of
seconds modulo the year. -/
theorem incrementSystemTime_iterate (t : ClockTime) (N : Nat) (h : validTime t) :
    validTime (incrementSystemTime^[N] t) ∧
      toSeconds (incrementSystemTime^[N] t) = (toSeconds t + N) % YEAR_SECONDS := by
  induction N with
  | zero =>
    refine ⟨by simpa using h, ?_⟩
    have hlt := toSeconds_lt t h
    simp [Nat.mod_eq_of_lt hlt]
  | succ n ih =>
    obtain ⟨ihv, ihs⟩ := ih
    obtain ⟨hv, hstep⟩ := incrementSystemTime_step _ ihv
    rw [Function.iterate_succ_apply']
    refine ⟨hv, ?_⟩
    rw [hstep, ihs]
    unfold YEAR_SECONDS
    omega

/-- C2: advancing a valid clock by one second N times equals advancing it by
N seconds in the modelled 365-day calendar (addition modulo the year on the
seconds denotation), validity — in particular the day never exceeding the
month's day count — is preserved by every advance, 23:59:59 on day 31 of
month 1 advances to 00:00:00 day 1 month 2, and day 28 of month 2 always
rolls over to day 1 month 3 regardless of the time of day. -/
theorem clockAdvance_composition (t : ClockTime) (N h m s : Nat)
    (hv : validTime t) :
    validTime (incrementSystemTime t) ∧
    validTime (incrementSystemTime^[N] t) ∧
    toSeconds (incrementSystemTime^[N] t) = (toSeconds t + N) % YEAR_SECONDS ∧
    incrementSystemTime ⟨23, 59, 59, 31, 1⟩ = ⟨0, 0, 0, 1, 2⟩ ∧
    advanceDate ⟨h, m, s, 28, 2⟩ = ⟨h, m, s, 1, 3⟩ := by
  obtain ⟨hv1, -⟩ := incrementSystemTime_step t hv
  obtain ⟨hvN, hsN⟩ := incrementSystemTime_iterate t N hv
  refine ⟨hv1, hvN, hsN, by decide, ?_⟩
  simp [advanceDate, daysInMonth, DAYS_PER_MONTH]

/-- Concrete instantiation of `clockAdvance_composition` at the boot clock
value, advanced 3600 seconds. -/
theorem clockAdvance_composition_witness :
    validTime ⟨4, 0, 0, 24, 1⟩ ∧
    (validTime (incrementSystemTime ⟨4, 0, 0, 24, 1⟩) ∧
     validTime (incrementSystemTime^[3600] ⟨4, 0, 0, 24, 1⟩) ∧
     toSeconds (incrementSystemTime^[3600] ⟨4, 0, 0, 24, 1⟩) =
       (toSeconds ⟨4, 0, 0, 24, 1⟩ + 3600) % YEAR_SECONDS ∧
     incrementSystemTime ⟨23, 59, 59, 31, 1⟩ = ⟨0, 0, 0, 1, 2⟩ ∧
     advanceDate ⟨7, 8, 9, 28, 2⟩ = ⟨7, 8, 9, 1, 3⟩) :=
  ⟨by decide, clockAdvance_composition ⟨4, 0, 0, 24, 1⟩ 3600 7 8 9 (by decide)⟩

/-! ## C4 -/

/-- The final snap of the pace update: any result below 0.5 is exactly 0. -/
theorem paceUpdate_snap (x y : ℚ) (h : paceUpdate x y < 1 / 2) :
    paceUpdate x y = 0 := by
  simp only [paceUpdate] at h ⊢
  split_ifs at h ⊢ <;> first | rfl | linarith

/-- Rising branch of the pace update for an in-range target: move up by 2
without crossing the target; snap and clamp do not fire. -/
theorem paceUpdate_up (r d : ℚ) (hr1 : 1 / 2 ≤ r) (hr2 : r ≤ 100) (hd1 : 0 ≤ d)
    (hdr : d ≤ r) : paceUpdate r d = if r ≤ d + 2 then r else d + 2 := by
  simp only [paceUpdate]
  split_ifs <;> linarith

/-- Falling branch of the pace update for an in-range target: move down by 2
without crossing the target; snap and clamp do not fire. -/
theorem paceUpdate_down (r d : ℚ) (hr1 : 1 / 2 ≤ r) (hd2 : d ≤ 100)
    (hdr : r ≤ d) : paceUpdate r d = if d - 2 ≤ r then r else d - 2 := by
  simp only [paceUpdate]
  split_ifs <;> linarith

/-- Iterating the pace update from an in-range start reaches an in-range
target exactly once the iteration count covers the initial distance at 2 per
step. -/
theorem paceUpdate_reach (r : ℚ) (hr1 : 1 / 2 ≤ r) (hr2 : r ≤ 100) :
    ∀ (N : Nat) (d : ℚ), 0 ≤ d → d ≤ 100 → |d - r| ≤ 2 * N →
      (paceUpdate r)^[N] d = r := by
  intro N
  induction N with
  | zero =>
    intro d hd1 hd2 hdist
    rw [abs_le] at hdist
    push_cast at hdist
    simp only [Function.iterate_zero, id_eq]
    linarith [hdist.1, hdist.2]
  | succ n ih =>
    intro d hd1 hd2 hdist
    have hn : (0 : ℚ) ≤ (n : ℚ) := Nat.cast_nonneg n
    rw [abs_le] at hdist
    push_cast at hdist
    obtain ⟨hl, hu⟩ := hdist
    rw [Function.iterate_succ_apply]
    rcases le_or_lt d r with hdr | hdr
    · rw [paceUpdate_up r d hr1 hr2 hd1 hdr]
      split_ifs with hc
      · refine ih r (by linarith) (by linarith) ?_
        rw [abs_le]
        constructor <;> push_cast <;> linarith
      · refine ih (d + 2) (by linarith) (by linarith) ?_
        rw [abs_le]
        constructor <;> push_cast <;> linarith
    · rw [paceUpdate_down r d hr1 hd2 (le_of_lt hdr)]
      split_ifs with hc
      · refine ih r (by linarith) (by linarith) ?_
        rw [abs_le]
        constructor <;> push_cast <;> linarith
      · refine ih (d - 2) (by linarith) (by linarith) ?_
        rw [abs_le]
        constructor <;> push_cast <;> linarith

/-- C4 (amended): for every rawPace target in [0.5, 100] and initial
displayedPace in [0, 100], one iteration moves displayedPace toward the
target by at most 2.0, never exceeds the target while rising nor undershoots
it while falling, stays in [0, 100], and the iteration reaches the target
exactly (hence within 2.0) within ceil(|target - initial| / 2) iterations;
for arbitrary inputs, an updated value below 0.5 snaps to exactly 0.
(The original unrestricted claim fails for targets outside [0.5, 100], see
the counterexample.) -/
theorem paceTracking_amended (r d0 x y : ℚ) (N : Nat)
    (hr1 : 1 / 2 ≤ r) (hr2 : r ≤ 100) (hd1 : 0 ≤ d0) (hd2 : d0 ≤ 100)
    (hN : ⌈|r - d0| / 2⌉ ≤ (N : ℤ)) :
    |paceUpdate r d0 - d0| ≤ 2 ∧
    (d0 ≤ r → d0 ≤ paceUpdate r d0 ∧ paceUpdate r d0 ≤ r) ∧
    (r ≤ d0 → r ≤ paceUpdate r d0 ∧ paceUpdate r d0 ≤ d0) ∧
    0 ≤ paceUpdate r d0 ∧ paceUpdate r d0 ≤ 100 ∧
    (paceUpdate r)^[N] d0 = r ∧
    (paceUpdate x y < 1 / 2 → paceUpdate x y = 0) := by
  have hcl : (|r - d0| / 2 : ℚ) ≤ (N : ℚ) :=
    le_trans (Int.le_ceil _) (by exact_mod_cast hN)
  have habs : |d0 - r| = |r - d0| := abs_sub_comm d0 r
  have hdist : |d0 - r| ≤ 2 * N := by
    rw [habs]
    linarith
  have hreach := paceUpdate_reach r hr1 hr2 N d0 hd1 hd2 hdist
  rcases le_total d0 r with hdr | hdr
  · rw [paceUpdate_up r d0 hr1 hr2 hd1 hdr]
    refine ⟨?_, ?_, ?_, ?_, ?_, ?_, paceUpdate_snap x y⟩
    · rw [abs_le]
      constructor <;> split_ifs <;> linarith
    · intro h2
      constructor <;> split_ifs <;> linarith
    · intro h2
      constructor <;> split_ifs <;> linarith
    · split_ifs <;> linarith
    · split_ifs <;> linarith
    · exact hreach
  · rw [paceUpdate_down r d0 hr1 hd2 hdr]
    refine ⟨?_, ?_, ?_, ?_, ?_, ?_, paceUpdate_snap x y⟩
    · rw [abs_le]
      constructor <;> split_ifs <;> linarith
    · intro h2
      constructor <;> split_ifs <;> linarith
    · intro h2
      constructor <;> split_ifs <;> linarith
    · split_ifs <;> linarith
    · split_ifs <;> linarith
    · exact hreach

/-- Concrete instantiation of `paceTracking_amended` at target 60 from 0,
with snap inputs 0 and 2.4. -/
theorem paceTracking_witness :
    ((1 : ℚ) / 2 ≤ 60 ∧ (60 : ℚ) ≤ 100 ∧ (0 : ℚ) ≤ 0 ∧ (0 : ℚ) ≤ 100 ∧
      ⌈|(60 : ℚ) - 0| / 2⌉ ≤ ((30 : Nat) : ℤ)) ∧
    (|paceUpdate 60 0 - 0| ≤ 2 ∧
      ((0 : ℚ) ≤ 60 → (0 : ℚ) ≤ paceUpdate 60 0 ∧ paceUpdate 60 0 ≤ 60) ∧
      ((60 : ℚ) ≤ 0 → (60 : ℚ) ≤ paceUpdate 60 0 ∧ paceUpdate 60 0 ≤ 0) ∧
      0 ≤ paceUpdate 60 0 ∧ paceUpdate 60 0 ≤ 100 ∧
      (paceUpdate 60)^[30] 0 = 60 ∧
      (paceUpdate 0 (12 / 5) < 1 / 2 → paceUpdate 0 (12 / 5) = 0)) :=
  ⟨⟨by norm_num, by norm_num, le_refl 0, by norm_num, by
      have h : |(60 : ℚ) - 0| / 2 = ((30 : ℤ) : ℚ) := by norm_num
      rw [h, Int.ceil_intCast]
      exact_mod_cast le_refl (30 : ℤ)⟩,
    paceTracking_amended 60 0 0 (12 / 5) 30 (by norm_num) (by norm_num)
      (le_refl 0) (by norm_num)
      (by
        have h : |(60 : ℚ) - 0| / 2 = ((30 : ℤ) : ℚ) := by norm_num
        rw [h, Int.ceil_intCast]
        exact_mod_cast le_refl (30 : ℤ))⟩

/-- C4 as stated is refuted on the code: (a) with rawPace target 120 (two
steps in one second) and displayedPace 100, ceil(|120 - 100| / 2) = 10
iterations still leave displayedPace at 100, which is not within 2.0 of the
target — the clamp at 100 prevents convergence to any target above 100; and
(b) with target 0 and displayedPace 2.4 a single iteration moves the value
by 2.4 > 2.0 (down-step 2.0 followed by the snap to 0). -/
theorem paceTracking_counterexample :
    ((paceUpdate 120)^[10] 100 = 100 ∧ ¬(|(100 : ℚ) - 120| ≤ 2)) ∧
    (paceUpdate 0 (12 / 5) = 0 ∧ ¬(|paceUpdate 0 (12 / 5) - 12 / 5| ≤ 2)) := by
  have hfix : paceUpdate 120 100 = 100 := by norm_num [paceUpdate]
  have hsnap : paceUpdate 0 (12 / 5) = 0 := by norm_num [paceUpdate]
  refine ⟨⟨Function.iterate_fixed hfix 10, ?_⟩, hsnap, ?_⟩
  · rw [abs_le]
    push_neg
    intro h
    norm_num at h
  · rw [hsnap, abs_le]
    push_neg
    intro h
    norm_num at h
